import Mathlib

/-!
Verification of the ride search-and-booking seat-accounting core of the
car_ride repository.

The repository is an Expo / React-Native client; the HTTP backend
(`backend/server.py`, referenced throughout `test_result.md` and the API
clients) is not part of the sources available here.  Consequently:

* the client-side code (booking handlers, publish-screen validation,
  request construction) is embedded directly from the TypeScript sources;
* the ledger operations `publish`, `reserve`, `cancel` and `search`,
  which live in the missing backend, are modelled from the spec
  (sections 3-5 of spec.md) and verified against the spec's claims.

Conventions of the embedding:
* machine numbers are `Nat` / `Int`; decimal amounts and coordinates are
  `Rat`; seat counts and identifiers are `Nat` on the ledger side and,
  on the client side, the strings of the form fields, parsed by explicit
  models of JavaScript's `parseInt` / `parseFloat`;
* a JavaScript `parseFloat` result is modelled as a scaled mantissa
  `Int × Nat` (value = mantissa / 10 ^ scale); the only operations the
  client performs on such a value are comparisons with zero, which are
  faithfully represented by the sign of the mantissa;
* concurrency is modelled as arbitrary interleavings of atomic per-call
  state transitions, which is the spec's own atomicity requirement
  (section 5: every `reserve` is one atomic unit of work).
-/

namespace CarRide

/-! ## Ledger data model (modelled from the spec, section 3) -/

/-- Status of a published ride offer. -/
inductive RideStatus where
  | Active
  | Cancelled
  | Completed
deriving DecidableEq, Repr

/-- Status of a booking. -/
inductive BookingStatus where
  | Confirmed
  | Cancelled
deriving DecidableEq, Repr

/-- A named geographic point, as in the `Location` interface of
`frontend/src/api/rides.ts`. -/
structure Loc where
  name : String
  lat : Rat
  lng : Rat
deriving DecidableEq, Repr

/-- Modelled from the spec: the `RideOffer` record of section 3 (the
backend's ride document is not among the available sources). -/
structure RideOffer where
  id : Nat
  riderId : Nat
  origin : Loc
  destination : Loc
  departureTime : Int
  totalSeats : Nat
  availableSeats : Nat
  pricePerSeat : Rat
  status : RideStatus
deriving DecidableEq, Repr

/-- Modelled from the spec: the `Booking` record of section 3. -/
structure Booking where
  id : Nat
  rideId : Nat
  passengerId : Nat
  seatsRequested : Nat
  totalPrice : Rat
  status : BookingStatus
deriving DecidableEq, Repr

/-- Modelled from the spec: the persistent state of the Ride & Booking
Ledger - the ride catalog, the booking rows, and the id allocators. -/
structure LedgerState where
  rides : List RideOffer
  bookings : List Booking
  nextRideId : Nat
  nextBookingId : Nat
deriving DecidableEq, Repr

/-- The empty ledger. -/
def initState : LedgerState := ⟨[], [], 0, 0⟩

/-- The spec's failure taxonomy (section 7). -/
inductive ApiError where
  | ValidationError
  | NotFoundError
  | SelfBookingError
  | InsufficientSeatsError
  | AuthorizationError
deriving DecidableEq, Repr

/-- Input of `publish` (section 4.1). -/
structure CreateRideReq where
  origin : Loc
  destination : Loc
  departureTime : Int
  totalSeats : Nat
  pricePerSeat : Rat
deriving DecidableEq, Repr

/-- Coordinate validity check of section 4.1: latitude in [-90, 90],
longitude in [-180, 180]. -/
def validCoord (l : Loc) : Bool :=
  decide (-90 ≤ l.lat) && decide (l.lat ≤ 90) &&
  decide (-180 ≤ l.lng) && decide (l.lng ≤ 180)

/-- Modelled from the spec: `publish` (section 4.1).  Validates
`departureTime` strictly in the future, `totalSeats ≥ 1`,
`pricePerSeat ≥ 0` and both coordinates; on success appends a ride with
`availableSeats = totalSeats` and `status = Active`. -/
def publish (s : LedgerState) (riderId : Nat) (now : Int) (req : CreateRideReq) :
    Except ApiError (RideOffer × LedgerState) :=
  if req.departureTime ≤ now then .error .ValidationError
  else if req.totalSeats < 1 then .error .ValidationError
  else if req.pricePerSeat < 0 then .error .ValidationError
  else if !(validCoord req.origin && validCoord req.destination) then .error .ValidationError
  else
    let r : RideOffer :=
      { id := s.nextRideId, riderId := riderId, origin := req.origin,
        destination := req.destination, departureTime := req.departureTime,
        totalSeats := req.totalSeats, availableSeats := req.totalSeats,
        pricePerSeat := req.pricePerSeat, status := .Active }
    .ok (r, { s with rides := s.rides ++ [r], nextRideId := s.nextRideId + 1 })

/-- Look up a ride row by id. -/
def findRide (s : LedgerState) (rideId : Nat) : Option RideOffer :=
  s.rides.find? (fun r => r.id == rideId)

/-- Modelled from the spec: `reserve` (section 4.2).  One atomic unit of
work: re-reads `availableSeats`, checks the preconditions in the spec's
order (ride exists and Active; `seatsRequested ≥ 1`; not the rider's own
ride; enough seats), then decrements the seat count and creates the
Confirmed booking together. -/
def reserve (s : LedgerState) (passengerId rideId seats : Nat) :
    Except ApiError (Booking × LedgerState) :=
  match s.rides.find? (fun r => r.id == rideId) with
  | none => .error .NotFoundError
  | some r =>
    if r.status ≠ RideStatus.Active then .error .NotFoundError
    else if seats < 1 then .error .ValidationError
    else if passengerId = r.riderId then .error .SelfBookingError
    else if r.availableSeats < seats then .error .InsufficientSeatsError
    else
      let b : Booking :=
        { id := s.nextBookingId, rideId := rideId, passengerId := passengerId,
          seatsRequested := seats, totalPrice := (seats : Rat) * r.pricePerSeat,
          status := .Confirmed }
      .ok (b, { s with
        rides := s.rides.map (fun q =>
          if q.id == rideId then { q with availableSeats := q.availableSeats - seats } else q),
        bookings := s.bookings ++ [b],
        nextBookingId := s.nextBookingId + 1 })

/-- Modelled from the spec: `cancel` (section 4.2).  Only the owning
passenger may cancel; cancelling an already-Cancelled booking is a no-op
success; cancelling a Confirmed booking flips it to Cancelled and returns
its seats to the ride, atomically. -/
def cancel (s : LedgerState) (passengerId bookingId : Nat) :
    Except ApiError LedgerState :=
  match s.bookings.find? (fun b => b.id == bookingId) with
  | none => .error .NotFoundError
  | some b =>
    if passengerId ≠ b.passengerId then .error .AuthorizationError
    else match b.status with
      | .Cancelled => .ok s
      | .Confirmed => .ok { s with
          bookings := s.bookings.map (fun c =>
            if c.id == bookingId then { c with status := BookingStatus.Cancelled } else c),
          rides := s.rides.map (fun q =>
            if q.id == b.rideId then { q with availableSeats := q.availableSeats + b.seatsRequested } else q) }

/-- Search filter of section 4.1; absent options impose no constraint. -/
structure SearchFilter where
  originNear : Option (Rat × Rat × Rat)
  destinationNear : Option (Rat × Rat × Rat)
  onOrAfter : Option Int
deriving DecidableEq, Repr

/-- Planar-approximation distance check against a radius (the spec leaves
the exact formula open, requiring only monotonicity in distance). -/
def nearBool (l : Loc) (c : Rat × Rat × Rat) : Bool :=
  decide ((l.lat - c.1) ^ 2 + (l.lng - c.2.1) ^ 2 ≤ c.2.2 ^ 2)

/-- Whether a ride satisfies every present filter option. -/
def matchesFilter (f : SearchFilter) (r : RideOffer) : Bool :=
  (match f.originNear with | none => true | some c => nearBool r.origin c) &&
  (match f.destinationNear with | none => true | some c => nearBool r.destination c) &&
  (match f.onOrAfter with | none => true | some t => decide (t ≤ r.departureTime))

/-- Search order: `departureTime` ascending, ties broken by `id`. -/
def rideLE (a b : RideOffer) : Prop :=
  a.departureTime < b.departureTime ∨
    (a.departureTime = b.departureTime ∧ a.id ≤ b.id)

instance : DecidableRel rideLE := fun a b =>
  inferInstanceAs (Decidable (_ ∨ _ ∧ _))

instance : IsTotal RideOffer rideLE where
  total a b := by
    unfold rideLE
    rcases lt_trichotomy a.departureTime b.departureTime with h | h | h
    · exact Or.inl (Or.inl h)
    · rcases Nat.le_total a.id b.id with h' | h'
      · exact Or.inl (Or.inr ⟨h, h'⟩)
      · exact Or.inr (Or.inr ⟨h.symm, h'⟩)
    · exact Or.inr (Or.inl h)

instance : IsTrans RideOffer rideLE where
  trans a b c hab hbc := by
    unfold rideLE at *
    rcases hab with h1 | ⟨h1, h1'⟩ <;> rcases hbc with h2 | ⟨h2, h2'⟩
    · exact Or.inl (h1.trans h2)
    · exact Or.inl (h2 ▸ h1)
    · exact Or.inl (h1 ▸ h2)
    · exact Or.inr ⟨h1.trans h2, h1'.trans h2'⟩

/-- Modelled from the spec: `search` (section 4.1).  Returns only Active
rides with `availableSeats > 0` matching the filter, ordered by
`departureTime` ascending with a stable tie-break by `id`. -/
def searchRides (s : LedgerState) (f : SearchFilter) : List RideOffer :=
  ((s.rides.filter (fun r =>
      decide (r.status = RideStatus.Active) &&
      decide (0 < r.availableSeats) &&
      matchesFilter f r))).insertionSort rideLE

/-! State projections: each operation either commits its new state or
fails and leaves the ledger untouched. -/

/-- State after a `publish` call (unchanged on error). -/
def stepPublish (s : LedgerState) (riderId : Nat) (now : Int) (req : CreateRideReq) :
    LedgerState :=
  match publish s riderId now req with
  | .ok (_, s') => s'
  | .error _ => s

/-- State after a `reserve` call (unchanged on error). -/
def stepReserve (s : LedgerState) (passengerId rideId seats : Nat) : LedgerState :=
  match reserve s passengerId rideId seats with
  | .ok (_, s') => s'
  | .error _ => s

/-- State after a `cancel` call (unchanged on error). -/
def stepCancel (s : LedgerState) (passengerId bookingId : Nat) : LedgerState :=
  match cancel s passengerId bookingId with
  | .ok s' => s'
  | .error _ => s

/-- Success-or-error outcome of a `reserve` call, with the booking value
erased (used to compare the fate of one call across two ledger states). -/
def reserveOutcome (s : LedgerState) (passengerId rideId seats : Nat) :
    Except ApiError Unit :=
  (reserve s passengerId rideId seats).map (fun _ => ())

/-- One ledger operation; an interleaving of concurrent callers is an
arbitrary sequence of these atomic operations. -/
inductive Op where
  | publish (riderId : Nat) (now : Int) (req : CreateRideReq)
  | reserve (passengerId rideId seats : Nat)
  | cancel (passengerId bookingId : Nat)
deriving DecidableEq, Repr

/-- Apply one operation to the ledger state. -/
def applyOp (s : LedgerState) : Op → LedgerState
  | .publish riderId now req => stepPublish s riderId now req
  | .reserve passengerId rideId seats => stepReserve s passengerId rideId seats
  | .cancel passengerId bookingId => stepCancel s passengerId bookingId

/-- The state reached from the empty ledger by a sequence of operations. -/
def run (ops : List Op) : LedgerState := ops.foldl applyOp initState

/-- Total seats held by Confirmed bookings that reference ride `rid`. -/
def seatSum : List Booking → Nat → Nat
  | [], _ => 0
  | b :: bs, rid =>
    (if b.status = BookingStatus.Confirmed ∧ b.rideId = rid then b.seatsRequested else 0)
      + seatSum bs rid

/-- Well-formedness of a ledger state: every ride's seat count and the
Confirmed bookings referencing it account exactly for `totalSeats`; ride
ids and booking ids are unique and below their allocators; bookings only
reference allocated ride ids. -/
abbrev Inv (s : LedgerState) : Prop :=
  (∀ r ∈ s.rides, r.availableSeats + seatSum s.bookings r.id = r.totalSeats) ∧
  (s.rides.map (fun r => r.id)).Nodup ∧
  (∀ r ∈ s.rides, r.id < s.nextRideId) ∧
  (s.bookings.map (fun b => b.id)).Nodup ∧
  (∀ b ∈ s.bookings, b.id < s.nextBookingId) ∧
  (∀ b ∈ s.bookings, b.rideId < s.nextRideId)

/-- Run a batch of `reserve` calls, all against ride `rid` for `seats`
seats each, one caller per list entry, in list order (one interleaving of
the concurrent callers); returns each call's result and the final state. -/
def runReserves (rid seats : Nat) : LedgerState → List Nat →
    List (Except ApiError Booking) × LedgerState
  | s, [] => ([], s)
  | s, p :: ps =>
    match reserve s p rid seats with
    | .ok (b, s') =>
      let rest := runReserves rid seats s' ps
      (.ok b :: rest.1, rest.2)
    | .error e =>
      let rest := runReserves rid seats s ps
      (.error e :: rest.1, rest.2)

end CarRide

namespace CarRideClient

open CarRide (Loc)

/-! ## Client-side embeddings (from the TypeScript sources) -/

/-- Characters of a string with leading and trailing blanks removed
(model of JavaScript's `String.prototype.trim` on form input). -/
def trimChars (s : String) : List Char :=
  ((s.toList.dropWhile (· = ' ')).reverse.dropWhile (· = ' ')).reverse

/-- Decimal digit test. -/
def isDigitChar (c : Char) : Bool := decide ('0' ≤ c) && decide (c ≤ '9')

/-- Value of a list of decimal digits. -/
def digitsVal (cs : List Char) : Nat :=
  cs.foldl (fun n c => n * 10 + (c.toNat - 48)) 0

/-- Model of JavaScript's `parseInt` on form input: optional sign, then
the longest prefix of decimal digits; `none` is `NaN`. -/
def parseIntJS (s : String) : Option Int :=
  match trimChars s with
  | '-' :: rest =>
    let ds := rest.takeWhile isDigitChar
    if ds.isEmpty then none else some (-(digitsVal ds : Int))
  | '+' :: rest =>
    let ds := rest.takeWhile isDigitChar
    if ds.isEmpty then none else some (digitsVal ds)
  | rest =>
    let ds := rest.takeWhile isDigitChar
    if ds.isEmpty then none else some (digitsVal ds)

/-- Model of JavaScript's `parseFloat` on form input, as a scaled
mantissa: `some (m, k)` stands for the number `m / 10 ^ k`; `none` is
`NaN`.  The client only ever compares such a value with zero, which is
the sign of `m`. -/
def parseFloatJS (s : String) : Option (Int × Nat) :=
  let body : List Char → Option (Nat × Nat) := fun rest =>
    let intDs := rest.takeWhile isDigitChar
    let rest2 := rest.drop intDs.length
    let fracDs := match rest2 with
      | '.' :: r => r.takeWhile isDigitChar
      | _ => []
    if intDs.isEmpty && fracDs.isEmpty then none
    else some (digitsVal intDs * 10 ^ fracDs.length + digitsVal fracDs, fracDs.length)
  match trimChars s with
  | '-' :: rest => (body rest).map (fun p => (-(p.1 : Int), p.2))
  | '+' :: rest => (body rest).map (fun p => ((p.1 : Int), p.2))
  | rest => (body rest).map (fun p => ((p.1 : Int), p.2))

/-- Whether a parsed float is strictly positive. -/
def posFloat : Option (Int × Nat) → Bool
  | none => false
  | some (m, _) => decide (0 < m)

/-- The form state of the validating form-based publish screen
(`PublishRideScreen` with seat validation): text fields as typed by the
user, plus the value of `new Date(departureTime)` (`none` when the text
does not parse to a valid date). -/
structure RideFormA where
  originName : String
  originLat : String
  originLng : String
  destinationName : String
  destinationLat : String
  destinationLng : String
  departureTime : String
  departureDate : Option Int
  availableSeats : String
  pricePerSeat : String
  description : String
deriving DecidableEq, Repr

/-- `validateRideData` of the validating form-based publish screen.  The
early-`return false` chain of the source is one conjunction: non-blank
origin, destination, departure and price; the parsed departure, when the
date is valid, strictly in the future (an invalid date passes the check,
as `NaN <= now` is false in JavaScript); parsed price a number `> 0`;
parsed seats a number in `[1, 8]`.  No coordinate field is examined. -/
def validateRideData (now : Int) (f : RideFormA) : Bool :=
  !(trimChars f.originName).isEmpty &&
  !(trimChars f.destinationName).isEmpty &&
  !(trimChars f.departureTime).isEmpty &&
  !(f.departureDate.elim false (fun d => decide (d ≤ now))) &&
  !(trimChars f.pricePerSeat).isEmpty &&
  posFloat (parseFloatJS f.pricePerSeat) &&
  (match parseIntJS f.availableSeats with
    | none => false
    | some k => decide (1 ≤ k) && decide (k ≤ 8))

/-- The `POST /rides` request body built by the publish screens
(`CreateRideRequest` of `frontend/src/api/rides.ts`); numeric fields keep
the `Option` of their JavaScript parse (`none` = `NaN`). -/
structure CreateRideMsg where
  originName : String
  originLat : Option (Int × Nat)
  originLng : Option (Int × Nat)
  destinationName : String
  destinationLat : Option (Int × Nat)
  destinationLng : Option (Int × Nat)
  departureTime : Int
  available_seats : Option Int
  price_per_seat : Option (Int × Nat)
  description : String
deriving DecidableEq, Repr

/-- `parseFloat(x) || 0` of the form screens: `NaN` becomes `0`. -/
def floatOrZero (s : String) : Option (Int × Nat) :=
  match parseFloatJS s with
  | none => some (0, 0)
  | some p => some p

/-- `handlePublishRide` of the validating form-based publish screen: runs
`validateRideData`, then builds the request.  `new Date(...).toISOString()`
throws on an invalid date (caught by the surrounding `try`), so no request
is issued in that case. -/
def handlePublishRideA (now : Int) (f : RideFormA) : Option CreateRideMsg :=
  if validateRideData now f then
    match f.departureDate with
    | none => none
    | some d => some
      { originName := f.originName, originLat := floatOrZero f.originLat,
        originLng := floatOrZero f.originLng,
        destinationName := f.destinationName,
        destinationLat := floatOrZero f.destinationLat,
        destinationLng := floatOrZero f.destinationLng,
        departureTime := d, available_seats := parseIntJS f.availableSeats,
        price_per_seat := parseFloatJS f.pricePerSeat,
        description := f.description }
  else none

/-- `handlePublishRide` of the non-validating form-based publish screen
variant: only requires the origin, destination, departure and price
fields to be non-empty (JavaScript truthiness on the raw strings - no
trim, no numeric check, no seat-range check), then sends the parsed
fields as they are. -/
def handlePublishRideLegacy (f : RideFormA) : Option CreateRideMsg :=
  if f.originName = "" || f.destinationName = "" ||
     f.departureTime = "" || f.pricePerSeat = "" then none
  else
    match f.departureDate with
    | none => none
    | some d => some
      { originName := f.originName, originLat := floatOrZero f.originLat,
        originLng := floatOrZero f.originLng,
        destinationName := f.destinationName,
        destinationLat := floatOrZero f.destinationLat,
        destinationLng := floatOrZero f.destinationLng,
        departureTime := d, available_seats := parseIntJS f.availableSeats,
        price_per_seat := parseFloatJS f.pricePerSeat,
        description := f.description }

/-- Form state of the modal-based publish screens: locations are picked
from a map or a places search (whole `Location` objects or nothing). -/
structure ModalForm where
  origin : Option Loc
  destination : Option Loc
  departureTime : String
  departureDate : Option Int
  pricePerSeat : String
deriving DecidableEq, Repr

/-- `validateRideData` of the modal-based publish screen: origin and
destination selected, departure non-blank and (when the date is valid)
strictly in the future, price non-blank and a number `> 0`. -/
def validateModalRide (now : Int) (f : ModalForm) : Bool :=
  f.origin.isSome && f.destination.isSome &&
  !(trimChars f.departureTime).isEmpty &&
  !(f.departureDate.elim false (fun d => decide (d ≤ now))) &&
  !(trimChars f.pricePerSeat).isEmpty &&
  posFloat (parseFloatJS f.pricePerSeat)

/-- Request of the modal-based publish screens' `handlePublishRide`: on
successful validation the body always carries `available_seats: 4` (the
hard-coded default). -/
def handlePublishRideModal (now : Int) (f : ModalForm) : Option CreateRideMsg :=
  if validateModalRide now f then
    match f.departureDate, f.origin, f.destination with
    | some d, some o, some dst => some
      { originName := o.name, originLat := none, originLng := none,
        destinationName := dst.name, destinationLat := none, destinationLng := none,
        departureTime := d, available_seats := some 4,
        price_per_seat := parseFloatJS f.pricePerSeat, description := "" }
    | _, _, _ => none
  else none

/-- The `POST /bookings` request body (`CreateBookingRequest` of
`frontend/src/api/rides.ts`). -/
structure CreateBookingMsg where
  ride_id : String
  seats_requested : Nat
deriving DecidableEq, Repr

/-- `handleBookRide` of `SearchResultsScreen`: refuses to book the
caller's own ride, otherwise issues a booking request for one seat.
`user` is the authenticated user's id, when logged in. -/
def searchBookRequest (user : Option String) (rideId riderId : String) :
    Option CreateBookingMsg :=
  match user with
  | some uid => if riderId = uid then none else some ⟨rideId, 1⟩
  | none => some ⟨rideId, 1⟩

/-- The fields of a ride object the ride-details booking handler reads:
the Mongo `_id` (absent or possibly empty), the `id`, and the owner. -/
structure ClientRide where
  mongoId : Option String
  id : String
  rider_id : String
deriving DecidableEq, Repr

/-- `handleBookRide` of `RideDetailsScreen`: resolves
`ride._id || ride.id` (JavaScript falsiness on the empty string), errors
out when both are empty, refuses the caller's own ride, otherwise issues
a booking request for one seat via the confirm dialog. -/
def detailsBookRequest (user : Option String) (ride : ClientRide) :
    Option CreateBookingMsg :=
  let rid := match ride.mongoId with
    | some s => if s = "" then ride.id else s
    | none => ride.id
  if rid = "" then none
  else match user with
    | some uid => if ride.rider_id = uid then none else some ⟨rid, 1⟩
    | none => some ⟨rid, 1⟩

end CarRideClient

/-! ## Concrete fixtures used by witnesses and counterexamples -/

namespace CarRide

/-- A valid origin point. -/
def locA : Loc := { name := "A", lat := 1, lng := 2 }

/-- A valid destination point. -/
def locB : Loc := { name := "B", lat := 3, lng := 4 }

/-- A fresh ride: 3 seats, all available, Active, owned by rider 7. -/
def rideFresh : RideOffer :=
  { id := 0, riderId := 7, origin := locA, destination := locB,
    departureTime := 10, totalSeats := 3, availableSeats := 3,
    pricePerSeat := 5, status := .Active }

/-- Ledger holding only `rideFresh`. -/
def stFresh : LedgerState := { rides := [rideFresh], bookings := [], nextRideId := 1, nextBookingId := 0 }

/-- The same ride with one seat left. -/
def rideOneLeft : RideOffer := { rideFresh with availableSeats := 1 }

/-- Ledger holding only `rideOneLeft`. -/
def stOneLeft : LedgerState :=
  { rides := [rideOneLeft], bookings := [], nextRideId := 1, nextBookingId := 0 }

/-- A Confirmed booking of 2 seats on ride 0 by passenger 1. -/
def bookingW : Booking :=
  { id := 0, rideId := 0, passengerId := 1, seatsRequested := 2,
    totalPrice := 10, status := .Confirmed }

/-- Ledger where passenger 1 holds `bookingW` against `rideOneLeft`. -/
def stBooked : LedgerState :=
  { rides := [rideOneLeft], bookings := [bookingW], nextRideId := 1, nextBookingId := 1 }

/-- An operation sequence: publish, reserve 2 seats, cancel the booking. -/
def opsW : List Op :=
  [ .publish 7 0 { origin := locA, destination := locB, departureTime := 10,
                   totalSeats := 3, pricePerSeat := 5 },
    .reserve 1 0 2,
    .cancel 1 0 ]

/-- A later ride (departure 20) with seats left. -/
def rideLate : RideOffer :=
  { id := 0, riderId := 7, origin := locA, destination := locB,
    departureTime := 20, totalSeats := 3, availableSeats := 1,
    pricePerSeat := 5, status := .Active }

/-- An earlier ride (departure 10) with seats left. -/
def rideEarly : RideOffer :=
  { id := 1, riderId := 8, origin := locA, destination := locB,
    departureTime := 10, totalSeats := 3, availableSeats := 2,
    pricePerSeat := 5, status := .Active }

/-- A sold-out Active ride. -/
def rideFull : RideOffer :=
  { id := 2, riderId := 9, origin := locA, destination := locB,
    departureTime := 5, totalSeats := 3, availableSeats := 0,
    pricePerSeat := 5, status := .Active }

/-- Catalog used to exercise `searchRides`. -/
def stCatalog : LedgerState :=
  { rides := [rideLate, rideEarly, rideFull], bookings := [], nextRideId := 3, nextBookingId := 0 }

/-- The filter with no constraints. -/
def noFilter : SearchFilter := { originNear := none, destinationNear := none, onOrAfter := none }

/-- A publish request used by the round-trip witness. -/
def reqW : CreateRideReq :=
  { origin := locA, destination := locB, departureTime := 10, totalSeats := 3, pricePerSeat := 5 }

/-- The ride `publish initState 7 0 reqW` creates. -/
def ridePub : RideOffer :=
  { id := 0, riderId := 7, origin := locA, destination := locB,
    departureTime := 10, totalSeats := 3, availableSeats := 3,
    pricePerSeat := 5, status := .Active }

/-- The state `publish initState 7 0 reqW` commits. -/
def stPub : LedgerState := { rides := [ridePub], bookings := [], nextRideId := 1, nextBookingId := 0 }

end CarRide

namespace CarRideClient

/-- Whether a parsed latitude is in [-90, 90] (mantissa/scale compare). -/
def latInRange : Option (Int × Nat) → Bool
  | none => true
  | some (m, k) => decide (-(90 : Int) * 10 ^ k ≤ m) && decide (m ≤ 90 * 10 ^ k)

/-- Whether a parsed longitude is in [-180, 180]. -/
def lngInRange : Option (Int × Nat) → Bool
  | none => true
  | some (m, k) => decide (-(180 : Int) * 10 ^ k ≤ m) && decide (m ≤ 180 * 10 ^ k)

/-- The publish validation rule as the spec's claim words it: departure
strictly in the future, seat count at least 1, price at least 0 (zero
accepted), latitude in [-90, 90] and longitude in [-180, 180] for both
endpoints - stated over the form's parsed fields to compare with the
code's `validateRideData`. -/
def publishAcceptsPerClaim (now : Int) (f : RideFormA) : Bool :=
  (f.departureDate.elim false (fun d => decide (now < d))) &&
  (match parseIntJS f.availableSeats with
    | none => false
    | some k => decide (1 ≤ k)) &&
  (match parseFloatJS f.pricePerSeat with
    | none => false
    | some p => decide (0 ≤ p.1)) &&
  latInRange (parseFloatJS f.originLat) && lngInRange (parseFloatJS f.originLng) &&
  latInRange (parseFloatJS f.destinationLat) && lngInRange (parseFloatJS f.destinationLng)

/-- A form that is valid in every respect except that the price is the
accepted-by-the-claim, rejected-by-the-code value `0`. -/
def formZeroPrice : RideFormA :=
  { originName := "A", originLat := "1", originLng := "2",
    destinationName := "B", destinationLat := "3", destinationLng := "4",
    departureTime := "2030-01-01 10:00", departureDate := some 100,
    availableSeats := "4", pricePerSeat := "0", description := "" }

/-- A form with an out-of-range latitude (200), which the claim rejects
and the code accepts. -/
def formBadLat : RideFormA :=
  { formZeroPrice with originLat := "200", pricePerSeat := "5" }

/-- A fully-filled form asking for 99 seats. -/
def formNinetyNine : RideFormA :=
  { formZeroPrice with availableSeats := "99", pricePerSeat := "5" }

/-- A valid form requesting 4 seats. -/
def formFourSeats : RideFormA :=
  { formZeroPrice with pricePerSeat := "5" }

/-- The request `handlePublishRideA` builds from `formFourSeats`. -/
def msgFour : CreateRideMsg :=
  { originName := "A", originLat := some (1, 0), originLng := some (2, 0),
    destinationName := "B", destinationLat := some (3, 0), destinationLng := some (4, 0),
    departureTime := 100, available_seats := some 4, price_per_seat := some (5, 0),
    description := "" }

end CarRideClient

/-! ## Helper lemmas -/

namespace CarRide

theorem seatSum_append (bs : List Booking) (b : Booking) (rid : Nat) :
    seatSum (bs ++ [b]) rid = seatSum bs rid +
      (if b.status = BookingStatus.Confirmed ∧ b.rideId = rid then b.seatsRequested else 0) := by
  induction bs with
  | nil => simp [seatSum]
  | cons c cs ih => simp [seatSum, ih, Nat.add_assoc]

theorem seatSum_eq_zero {bs : List Booking} {rid : Nat}
    (h : ∀ b ∈ bs, b.rideId ≠ rid) : seatSum bs rid = 0 := by
  induction bs with
  | nil => rfl
  | cons c cs ih =>
    have hc := h c (by simp)
    simp only [seatSum, if_neg (by tauto : ¬(c.status = BookingStatus.Confirmed ∧ c.rideId = rid))]
    exact Nat.zero_add _ ▸ ih (fun b hb => h b (List.mem_cons_of_mem _ hb))

theorem seatSum_le_of_mem {bs : List Booking} {b0 : Booking} (hb : b0 ∈ bs)
    (hc : b0.status = BookingStatus.Confirmed) {rid : Nat} (hr : b0.rideId = rid) :
    b0.seatsRequested ≤ seatSum bs rid := by
  induction bs with
  | nil => cases hb
  | cons c cs ih =>
    rcases List.mem_cons.mp hb with h | h
    · subst h
      simp only [seatSum, if_pos (And.intro hc hr)]
      omega
    · have := ih h
      simp only [seatSum]
      omega

theorem nodup_map_mem_eq {α β : Type _} {f : α → β} {l : List α}
    (h : (l.map f).Nodup) {a b : α} (ha : a ∈ l) (hb : b ∈ l) (hf : f a = f b) :
    a = b := by
  induction l with
  | nil => cases ha
  | cons c cs ih =>
    simp only [List.map_cons, List.nodup_cons] at h
    rcases List.mem_cons.mp ha with h1 | h1 <;> rcases List.mem_cons.mp hb with h2 | h2
    · exact h1.trans h2.symm
    · exact absurd (by rw [← h1, hf]; exact List.mem_map_of_mem f h2) h.1
    · exact absurd (by rw [← h2, ← hf]; exact List.mem_map_of_mem f h1) h.1
    · exact ih h.2 h1 h2

theorem map_cancel_id {bs : List Booking} {bid : Nat} (h : ∀ c ∈ bs, c.id ≠ bid) :
    bs.map (fun c => if c.id == bid then { c with status := BookingStatus.Cancelled } else c) = bs := by
  induction bs with
  | nil => rfl
  | cons c cs ih =>
    simp only [List.map_cons]
    rw [if_neg (by simpa using h c (by simp)), ih (fun c' hc' => h c' (List.mem_cons_of_mem _ hc'))]

theorem seatSum_map_cancel {bs : List Booking} (hn : (bs.map (fun b => b.id)).Nodup)
    {b0 : Booking} (hb0 : b0 ∈ bs) (hc : b0.status = BookingStatus.Confirmed) (rid : Nat) :
    seatSum (bs.map (fun c => if c.id == b0.id then { c with status := BookingStatus.Cancelled } else c)) rid
      + (if b0.rideId = rid then b0.seatsRequested else 0) = seatSum bs rid := by
  induction bs with
  | nil => cases hb0
  | cons c cs ih =>
    simp only [List.map_cons, List.nodup_cons] at hn
    by_cases hid : c.id = b0.id
    · have hceq : c = b0 := by
        rcases List.mem_cons.mp hb0 with h | h
        · exact h.symm
        · exact absurd (by rw [hid]; exact List.mem_map_of_mem (fun b => b.id) h) hn.1
      subst hceq
      rw [List.map_cons, if_pos (by simpa using hid),
        map_cancel_id (fun c' hc' hbad =>
          hn.1 (by rw [← hbad]; exact List.mem_map_of_mem (fun b => b.id) hc'))]
      simp only [seatSum]
      have hflip : ¬(({ c with status := BookingStatus.Cancelled } : Booking).status
          = BookingStatus.Confirmed ∧
          ({ c with status := BookingStatus.Cancelled } : Booking).rideId = rid) := by
        simp
      rw [if_neg hflip]
      by_cases hrid : c.rideId = rid
      · rw [if_pos hrid, if_pos (And.intro hc hrid)]; omega
      · rw [if_neg hrid, if_neg (fun hx => hrid hx.2)]; omega
    · have hmem : b0 ∈ cs := by
        rcases List.mem_cons.mp hb0 with h | h
        · exact absurd (congrArg (fun b => b.id) h.symm) hid
        · exact h
      rw [List.map_cons, if_neg (by simpa using hid)]
      simp only [seatSum]
      have := ih hn.2 hmem
      omega

theorem map_ids_if (rides : List RideOffer) (rid : Nat) (g : RideOffer → RideOffer)
    (hg : ∀ r, (g r).id = r.id) :
    ((rides.map (fun q => if q.id == rid then g q else q)).map (fun r => r.id))
      = rides.map (fun r => r.id) := by
  rw [List.map_map]
  apply List.map_congr_left
  intro q _
  by_cases h : q.id = rid
  · simp [h, hg]
  · simp [h]

theorem find?_map_if (rides : List RideOffer) (rid rid' : Nat) (g : RideOffer → RideOffer)
    (hg : ∀ r, (g r).id = r.id) :
    (rides.map (fun q => if q.id == rid then g q else q)).find? (fun r => r.id == rid')
      = (rides.find? (fun r => r.id == rid')).map
          (fun q => if q.id == rid then g q else q) := by
  rw [List.find?_map]
  have hp : ((fun r : RideOffer => r.id == rid') ∘ (fun q => if q.id == rid then g q else q))
      = (fun q : RideOffer => q.id == rid') := by
    funext q
    by_cases h : q.id = rid
    · simp [Function.comp, h, hg]
    · simp [Function.comp, h]
  rw [hp]

end CarRide

namespace CarRide

theorem map_bids_if (bs : List Booking) (bid : Nat) (g : Booking → Booking)
    (hg : ∀ b, (g b).id = b.id) :
    ((bs.map (fun c => if c.id == bid then g c else c)).map (fun b => b.id))
      = bs.map (fun b => b.id) := by
  rw [List.map_map]
  apply List.map_congr_left
  intro c _
  by_cases h : c.id = bid
  · simp [h, hg]
  · simp [h]

theorem find?_map_bif (bs : List Booking) (bid bid' : Nat) (g : Booking → Booking)
    (hg : ∀ b, (g b).id = b.id) :
    (bs.map (fun c => if c.id == bid then g c else c)).find? (fun b => b.id == bid')
      = (bs.find? (fun b => b.id == bid')).map
          (fun c => if c.id == bid then g c else c) := by
  rw [List.find?_map]
  have hp : ((fun b : Booking => b.id == bid') ∘ (fun c => if c.id == bid then g c else c))
      = (fun c : Booking => c.id == bid') := by
    funext c
    by_cases h : c.id = bid
    · simp [Function.comp, h, hg]
    · simp [Function.comp, h]
  rw [hp]

theorem nodup_append_singleton {l : List Nat} {a : Nat} (h : l.Nodup) (ha : a ∉ l) :
    (l ++ [a]).Nodup := by
  simp [List.nodup_append, h, ha]

theorem inv_init : Inv initState := by
  refine ⟨?_, ?_, ?_, ?_, ?_, ?_⟩ <;> simp [initState, seatSum]

theorem inv_stepPublish {s : LedgerState} (h : Inv s) (riderId : Nat) (now : Int)
    (req : CreateRideReq) : Inv (stepPublish s riderId now req) := by
  obtain ⟨h1, h2, h3, h4, h5, h6⟩ := h
  simp only [stepPublish, publish]
  split_ifs with c1 c2 c3 c4
  · exact ⟨h1, h2, h3, h4, h5, h6⟩
  · exact ⟨h1, h2, h3, h4, h5, h6⟩
  · exact ⟨h1, h2, h3, h4, h5, h6⟩
  · exact ⟨h1, h2, h3, h4, h5, h6⟩
  refine ⟨?_, ?_, ?_, h4, h5, ?_⟩
  · intro r hr
    rcases List.mem_append.mp hr with hr | hr
    · exact h1 r hr
    · have heq := List.mem_singleton.mp hr
      subst heq
      have hz : seatSum s.bookings s.nextRideId = 0 :=
        seatSum_eq_zero (fun b hb => Nat.ne_of_lt (h6 b hb))
      simp [hz]
  · rw [List.map_append]
    exact nodup_append_singleton h2 (by
      intro hmem
      rcases List.mem_map.mp hmem with ⟨r, hr, hrid⟩
      exact absurd hrid (Nat.ne_of_lt (h3 r hr)))
  · intro r hr
    rcases List.mem_append.mp hr with hr | hr
    · exact Nat.lt_succ_of_lt (h3 r hr)
    · have heq := List.mem_singleton.mp hr
      subst heq
      simp
  · intro b hb
    exact Nat.lt_succ_of_lt (h6 b hb)

theorem inv_stepReserve {s : LedgerState} (h : Inv s) (p rid n : Nat) :
    Inv (stepReserve s p rid n) := by
  obtain ⟨h1, h2, h3, h4, h5, h6⟩ := h
  simp only [stepReserve, reserve]
  cases hfind : s.rides.find? (fun r => r.id == rid) with
  | none => exact ⟨h1, h2, h3, h4, h5, h6⟩
  | some r0 =>
    have hmem := List.mem_of_find?_eq_some hfind
    have hid : r0.id = rid := by simpa using List.find?_some hfind
    by_cases c1 : r0.status ≠ RideStatus.Active
    · simp only [if_pos c1]; exact ⟨h1, h2, h3, h4, h5, h6⟩
    by_cases c2 : n < 1
    · simp only [if_neg c1, if_pos c2]; exact ⟨h1, h2, h3, h4, h5, h6⟩
    by_cases c3 : p = r0.riderId
    · simp only [if_neg c1, if_neg c2, if_pos c3]; exact ⟨h1, h2, h3, h4, h5, h6⟩
    by_cases c4 : r0.availableSeats < n
    · simp only [if_neg c1, if_neg c2, if_neg c3, if_pos c4]; exact ⟨h1, h2, h3, h4, h5, h6⟩
    simp only [if_neg c1, if_neg c2, if_neg c3, if_neg c4]
    subst hid
    refine ⟨?_, ?_, ?_, ?_, ?_, ?_⟩
    · intro r' hr'
      rcases List.mem_map.mp hr' with ⟨q, hq, rfl⟩
      rw [seatSum_append]
      by_cases hqid : q.id = r0.id
      · have hq0 : q = r0 := nodup_map_mem_eq h2 hq hmem hqid
        have havail : n ≤ q.availableSeats := by rw [hq0]; omega
        have hbal := h1 q hq
        rw [hqid] at hbal
        simp [hqid]
        omega
      · have hne : (q.id == r0.id) = false := by simpa using hqid
        have hne2 : ¬(r0.id = q.id) := fun hx => hqid hx.symm
        have hbal := h1 q hq
        simp [hne, hne2]
        omega
    · rw [map_ids_if s.rides r0.id
        (fun q => { q with availableSeats := q.availableSeats - n }) (fun r => rfl)]
      exact h2
    · intro r' hr'
      rcases List.mem_map.mp hr' with ⟨q, hq, rfl⟩
      by_cases hqid : q.id = r0.id
      · have := h3 q hq
        simp [hqid]
        omega
      · have hne : (q.id == r0.id) = false := by simpa using hqid
        simp [hne]
        exact h3 q hq
    · rw [List.map_append]
      exact nodup_append_singleton h4 (by
        intro hmemb
        rcases List.mem_map.mp hmemb with ⟨b, hb, hbid⟩
        exact absurd hbid (Nat.ne_of_lt (h5 b hb)))
    · dsimp only
      intro b hb
      rcases List.mem_append.mp hb with hb | hb
      · exact Nat.lt_succ_of_lt (h5 b hb)
      · have heq := List.mem_singleton.mp hb
        subst heq
        dsimp only
        omega
    · dsimp only
      intro b hb
      rcases List.mem_append.mp hb with hb | hb
      · exact h6 b hb
      · have heq := List.mem_singleton.mp hb
        subst heq
        dsimp only
        exact h3 r0 hmem

theorem inv_stepCancel {s : LedgerState} (h : Inv s) (p bid : Nat) :
    Inv (stepCancel s p bid) := by
  obtain ⟨h1, h2, h3, h4, h5, h6⟩ := h
  simp only [stepCancel, cancel]
  cases hfind : s.bookings.find? (fun b => b.id == bid) with
  | none => exact ⟨h1, h2, h3, h4, h5, h6⟩
  | some b0 =>
    have hmem := List.mem_of_find?_eq_some hfind
    have hid : b0.id = bid := by simpa using List.find?_some hfind
    subst hid
    by_cases c1 : p ≠ b0.passengerId
    · simp only [if_pos c1]; exact ⟨h1, h2, h3, h4, h5, h6⟩
    simp only [if_neg c1]
    cases hst : b0.status with
    | Cancelled => exact ⟨h1, h2, h3, h4, h5, h6⟩
    | Confirmed =>
      dsimp only
      refine ⟨?_, ?_, ?_, ?_, ?_, ?_⟩
      · intro r' hr'
        rcases List.mem_map.mp hr' with ⟨q, hq, rfl⟩
        dsimp only
        have hsum := seatSum_map_cancel h4 hmem hst q.id
        by_cases hqid : q.id = b0.rideId
        · have hbal := h1 q hq
          rw [if_pos hqid.symm] at hsum
          have hqbeq : (q.id == b0.rideId) = true := by simpa using hqid
          rw [if_pos hqbeq]
          dsimp only
          omega
        · have hbal := h1 q hq
          rw [if_neg (fun hx => hqid hx.symm)] at hsum
          have hqbeq : ¬((q.id == b0.rideId) = true) := by simpa using hqid
          rw [if_neg hqbeq]
          omega
      · rw [map_ids_if s.rides b0.rideId
          (fun q => { q with availableSeats := q.availableSeats + b0.seatsRequested })
          (fun r => rfl)]
        exact h2
      · intro r' hr'
        rcases List.mem_map.mp hr' with ⟨q, hq, rfl⟩
        by_cases hqid : q.id = b0.rideId
        · have := h3 q hq
          simp [hqid]
          omega
        · have hne : (q.id == b0.rideId) = false := by simpa using hqid
          simp [hne]
          exact h3 q hq
      · rw [map_bids_if s.bookings b0.id
          (fun c => { c with status := BookingStatus.Cancelled }) (fun b => rfl)]
        exact h4
      · intro b hb
        rcases List.mem_map.mp hb with ⟨c, hc, rfl⟩
        by_cases hcid : c.id = b0.id
        · have := h5 c hc
          simp [hcid]
          omega
        · have hne : (c.id == b0.id) = false := by simpa using hcid
          simp [hne]
          exact h5 c hc
      · intro b hb
        rcases List.mem_map.mp hb with ⟨c, hc, rfl⟩
        by_cases hcid : c.id = b0.id
        · have := h6 c hc
          simp [hcid]
          omega
        · have hne : (c.id == b0.id) = false := by simpa using hcid
          simp [hne]
          exact h6 c hc

theorem inv_applyOp {s : LedgerState} (h : Inv s) (op : Op) : Inv (applyOp s op) := by
  cases op with
  | publish riderId now req => exact inv_stepPublish h riderId now req
  | reserve p rid n => exact inv_stepReserve h p rid n
  | cancel p bid => exact inv_stepCancel h p bid

theorem inv_foldl {s : LedgerState} (h : Inv s) (ops : List Op) :
    Inv (ops.foldl applyOp s) := by
  induction ops generalizing s with
  | nil => exact h
  | cons op ops ih => exact ih (inv_applyOp h op)

theorem inv_run (ops : List Op) : Inv (run ops) := inv_foldl inv_init ops

end CarRide

namespace CarRide

theorem find?_mem_nodup {l : List RideOffer} (hn : (l.map (fun r => r.id)).Nodup)
    {r : RideOffer} (hr : r ∈ l) : l.find? (fun q => q.id == r.id) = some r := by
  induction l with
  | nil => cases hr
  | cons c cs ih =>
    simp only [List.map_cons, List.nodup_cons] at hn
    rcases List.mem_cons.mp hr with h | h
    · subst h
      exact List.find?_cons_of_pos _ (by simp)
    · by_cases hc : c.id = r.id
      · exact absurd (by rw [hc]; exact List.mem_map_of_mem (fun q => q.id) h) hn.1
      · rw [List.find?_cons_of_neg _ (by simpa using hc)]
        exact ih hn.2 h

theorem mem_searchRides {s : LedgerState} {f : SearchFilter} {r : RideOffer} :
    r ∈ searchRides s f ↔
      r ∈ s.rides ∧ r.status = RideStatus.Active ∧ 0 < r.availableSeats ∧
        matchesFilter f r = true := by
  simp [searchRides, List.mem_filter, and_assoc]

theorem publish_ok {s : LedgerState} {riderId : Nat} {now : Int} {req : CreateRideReq}
    {r : RideOffer} {s' : LedgerState} (h : publish s riderId now req = .ok (r, s')) :
    s'.rides = s.rides ++ [r] ∧ s'.bookings = s.bookings ∧
    r.availableSeats = r.totalSeats ∧ r.status = RideStatus.Active ∧
    1 ≤ r.totalSeats := by
  unfold publish at h
  split_ifs at h with c1 c2 c3 c4 <;>
    first
      | exact Except.noConfusion h
      | · simp only [Except.ok.injEq, Prod.mk.injEq] at h
          obtain ⟨hr, hs⟩ := h
          subst hr
          subst hs
          refine ⟨rfl, rfl, rfl, rfl, ?_⟩
          dsimp only
          omega

theorem reserve_ok {s : LedgerState} {p rid n : Nat} {b : Booking} {s' : LedgerState}
    (h : reserve s p rid n = .ok (b, s')) :
    ∃ r0, s.rides.find? (fun q => q.id == rid) = some r0 ∧
      s'.rides = s.rides.map (fun q =>
        if q.id == rid then { q with availableSeats := q.availableSeats - n } else q) ∧
      s'.bookings = s.bookings ++ [b] ∧
      b.status = BookingStatus.Confirmed ∧ b.rideId = rid ∧ b.seatsRequested = n := by
  unfold reserve at h
  cases hfind : s.rides.find? (fun q => q.id == rid) with
  | none =>
    simp only [hfind] at h
    exact Except.noConfusion h
  | some r0 =>
    simp only [hfind] at h
    split_ifs at h with c1 c2 c3 c4 <;>
      first
        | exact Except.noConfusion h
        | · simp only [Except.ok.injEq, Prod.mk.injEq] at h
            obtain ⟨hb, hs⟩ := h
            subst hb
            subst hs
            exact ⟨r0, rfl, rfl, rfl, rfl, rfl, rfl⟩

theorem runReserves_soldout (rid n : Nat) (ps : List Nat) :
    ∀ (s : LedgerState) (r : RideOffer),
      s.rides.find? (fun q => q.id == rid) = some r →
      r.status = RideStatus.Active → r.availableSeats = 0 → 1 ≤ n →
      (∀ p ∈ ps, p ≠ r.riderId) →
      (runReserves rid n s ps).1 =
        ps.map (fun _ => Except.error ApiError.InsufficientSeatsError) ∧
      (runReserves rid n s ps).2 = s := by
  induction ps with
  | nil => intro s r _ _ _ _ _; exact ⟨rfl, rfl⟩
  | cons p ps ih =>
    intro s r hfind hact hzero hn hps
    have hc1 : ¬(r.status ≠ RideStatus.Active) := by simp [hact]
    have hc2 : ¬(n < 1) := by omega
    have hc3 : ¬(p = r.riderId) := hps p (by simp)
    have hc4 : r.availableSeats < n := by omega
    have hrest := ih s r hfind hact hzero hn (fun q hq => hps q (List.mem_cons_of_mem _ hq))
    simp only [runReserves, reserve, hfind, if_neg hc1, if_neg hc2, if_neg hc3, if_pos hc4]
    simp [hrest.1, hrest.2]

end CarRide

/-! ## Claim theorems -/

namespace CarRide

theorem cancel_cancelled {s : LedgerState} {bid : Nat} {b : Booking}
    (hfind : s.bookings.find? (fun c => c.id == bid) = some b)
    (hst : b.status = BookingStatus.Cancelled) :
    cancel s b.passengerId bid = .ok s := by
  simp only [cancel, hfind, hst]
  rw [if_neg (fun hx => hx rfl)]

/-- C2: at every state reachable from the empty ledger by any sequence of
publish, reserve and cancel operations, every ride satisfies
`totalSeats - availableSeats = Σ seatsRequested` over the Confirmed
bookings that reference it, and `availableSeats` stays between 0 and
`totalSeats` (seat counts are naturals, so nonnegativity is by type; the
balance equality rules out any hidden underflow). -/
theorem c2_seat_accounting (ops : List Op) :
    ∀ r ∈ (run ops).rides,
      r.totalSeats - r.availableSeats = seatSum (run ops).bookings r.id ∧
      r.availableSeats ≤ r.totalSeats := by
  intro r hr
  have h := (inv_run ops).1 r hr
  omega

/-- Witness for C2: publish, reserve two seats, cancel; the invariant
holds at the resulting state. -/
theorem c2_seat_accounting_witness :
    rideFresh ∈ (run opsW).rides ∧
    (rideFresh.totalSeats - rideFresh.availableSeats = seatSum (run opsW).bookings rideFresh.id ∧
     rideFresh.availableSeats ≤ rideFresh.totalSeats) :=
  ⟨by decide, c2_seat_accounting opsW rideFresh (by decide)⟩

/-- C3: a reserve call for more seats than are available fails with
`InsufficientSeatsError` and leaves the ledger untouched - no booking is
created and every ride keeps its prior value. -/
theorem c3_insufficient_seats (s : LedgerState) (p rid n : Nat) (r : RideOffer)
    (hfind : findRide s rid = some r) (hact : r.status = RideStatus.Active)
    (hn : 1 ≤ n) (hself : p ≠ r.riderId) (hlt : r.availableSeats < n) :
    reserve s p rid n = .error .InsufficientSeatsError ∧
    stepReserve s p rid n = s := by
  have hfq : s.rides.find? (fun q => q.id == rid) = some r := hfind
  have hc1 : ¬(r.status ≠ RideStatus.Active) := by simp [hact]
  have hc2 : ¬(n < 1) := by omega
  constructor
  · simp only [reserve, hfq, if_neg hc1, if_neg hc2, if_neg hself, if_pos hlt]
  · simp only [stepReserve, reserve, hfq, if_neg hc1, if_neg hc2, if_neg hself, if_pos hlt]

/-- Witness for C3: the spec's own scenario - one seat left, two
requested. -/
theorem c3_insufficient_seats_witness :
    rideOneLeft.availableSeats < 2 ∧
    (reserve stOneLeft 1 0 2 = .error .InsufficientSeatsError ∧
     stepReserve stOneLeft 1 0 2 = stOneLeft) :=
  ⟨by decide,
   c3_insufficient_seats stOneLeft 1 0 2 rideOneLeft (by decide) (by decide)
     (by decide) (by decide) (by decide)⟩

/-- C4: a rider can never book their own offer.  On an Active ride the
rider's reserve call fails with `SelfBookingError` and changes nothing;
on any ride the rider's reserve call errors out (never succeeds); and
both client booking handlers refuse to issue the request when the
logged-in user owns the ride. -/
theorem c4_self_booking_rejected :
    (∀ (s : LedgerState) (rid n : Nat) (r : RideOffer),
      findRide s rid = some r → r.status = RideStatus.Active → 1 ≤ n →
      reserve s r.riderId rid n = .error .SelfBookingError ∧
      stepReserve s r.riderId rid n = s) ∧
    (∀ (s : LedgerState) (rid n : Nat) (r : RideOffer),
      findRide s rid = some r →
      ∃ e, reserve s r.riderId rid n = .error e) ∧
    (∀ (uid rideId : String),
      CarRideClient.searchBookRequest (some uid) rideId uid = none) ∧
    (∀ (uid : String) (ride : CarRideClient.ClientRide), ride.rider_id = uid →
      CarRideClient.detailsBookRequest (some uid) ride = none) := by
  refine ⟨?_, ?_, ?_, ?_⟩
  · intro s rid n r hfind hact hn
    have hfq : s.rides.find? (fun q => q.id == rid) = some r := hfind
    have hc1 : ¬(r.status ≠ RideStatus.Active) := by simp [hact]
    have hc2 : ¬(n < 1) := by omega
    constructor
    · simp [reserve, hfq, hc1, hc2]
    · simp [stepReserve, reserve, hfq, hc1, hc2]
  · intro s rid n r hfind
    have hfq : s.rides.find? (fun q => q.id == rid) = some r := hfind
    by_cases hc1 : r.status ≠ RideStatus.Active
    · exact ⟨.NotFoundError, by simp only [reserve, hfq, if_pos hc1]⟩
    by_cases hc2 : n < 1
    · exact ⟨.ValidationError, by simp only [reserve, hfq, if_neg hc1, if_pos hc2]⟩
    · exact ⟨.SelfBookingError, by simp [reserve, hfq, hc1, hc2]⟩
  · intro uid rideId
    simp [CarRideClient.searchBookRequest]
  · intro uid ride hr
    simp [CarRideClient.detailsBookRequest, hr]

/-- Witness for C4: rider 7 attempts to book the ride they own. -/
theorem c4_self_booking_rejected_witness :
    findRide stFresh 0 = some rideFresh ∧
    (reserve stFresh rideFresh.riderId 0 1 = .error .SelfBookingError ∧
     stepReserve stFresh rideFresh.riderId 0 1 = stFresh) ∧
    CarRideClient.detailsBookRequest (some "u")
      { mongoId := none, id := "r1", rider_id := "u" } = none :=
  ⟨by decide,
   c4_self_booking_rejected.1 stFresh 0 1 rideFresh (by decide) (by decide) (by decide),
   c4_self_booking_rejected.2.2.2 "u" { mongoId := none, id := "r1", rider_id := "u" } rfl⟩

/-- C5: cancelling a Confirmed booking by its owner succeeds, flips the
booking to Cancelled and returns exactly its seats to the ride without
exceeding `totalSeats`; cancelling again succeeds as a no-op, so two
consecutive cancels return the seats exactly once. -/
theorem c5_cancel_idempotent (s : LedgerState) (bid : Nat) (b0 : Booking) (r : RideOffer)
    (hinv : Inv s)
    (hfind : s.bookings.find? (fun b => b.id == bid) = some b0)
    (hconf : b0.status = BookingStatus.Confirmed)
    (hride : r ∈ s.rides) (hrid : r.id = b0.rideId) :
    cancel s b0.passengerId bid = .ok (stepCancel s b0.passengerId bid) ∧
    (stepCancel s b0.passengerId bid).bookings.find? (fun b => b.id == bid)
      = some { b0 with status := BookingStatus.Cancelled } ∧
    (stepCancel s b0.passengerId bid).rides.find? (fun q => q.id == b0.rideId)
      = some { r with availableSeats := r.availableSeats + b0.seatsRequested } ∧
    r.availableSeats + b0.seatsRequested ≤ r.totalSeats ∧
    cancel (stepCancel s b0.passengerId bid) b0.passengerId bid
      = .ok (stepCancel s b0.passengerId bid) := by
  obtain ⟨h1, h2, h3, h4, h5, h6⟩ := hinv
  have hid : b0.id = bid := by simpa using List.find?_some hfind
  subst hid
  have hbmem := List.mem_of_find?_eq_some hfind
  have hne : ¬(b0.passengerId ≠ b0.passengerId) := fun hx => hx rfl
  have hstep : stepCancel s b0.passengerId b0.id =
      { s with
        bookings := s.bookings.map (fun c =>
          if c.id == b0.id then { c with status := BookingStatus.Cancelled } else c),
        rides := s.rides.map (fun q =>
          if q.id == b0.rideId then { q with availableSeats := q.availableSeats + b0.seatsRequested } else q) } := by
    simp only [stepCancel, cancel, hfind, if_neg hne, hconf]
  have hflip : (s.bookings.map (fun c =>
      if c.id == b0.id then { c with status := BookingStatus.Cancelled } else c)).find?
        (fun b => b.id == b0.id) = some { b0 with status := BookingStatus.Cancelled } := by
    rw [find?_map_bif s.bookings b0.id b0.id
      (fun c => { c with status := BookingStatus.Cancelled }) (fun b => rfl), hfind]
    simp
  have hflip2 : (stepCancel s b0.passengerId b0.id).bookings.find? (fun b => b.id == b0.id)
      = some { b0 with status := BookingStatus.Cancelled } := by
    rw [hstep]
    exact hflip
  refine ⟨?_, hflip2, ?_, ?_, ?_⟩
  · rw [hstep]
    simp only [cancel, hfind, if_neg hne, hconf]
  · rw [hstep]
    have hfr : s.rides.find? (fun q => q.id == r.id) = some r := find?_mem_nodup h2 hride
    rw [hrid] at hfr
    show (s.rides.map (fun q =>
      if q.id == b0.rideId then { q with availableSeats := q.availableSeats + b0.seatsRequested } else q)).find?
        (fun q => q.id == b0.rideId) = _
    rw [find?_map_if s.rides b0.rideId b0.rideId
      (fun q => { q with availableSeats := q.availableSeats + b0.seatsRequested }) (fun q => rfl), hfr]
    have hbq : (r.id == b0.rideId) = true := by simpa using hrid
    simp [hbq]
    intro hx
    exact absurd hrid hx
  · have hbal := h1 r hride
    have hle := seatSum_le_of_mem hbmem hconf hrid.symm
    omega
  · exact @cancel_cancelled (stepCancel s b0.passengerId b0.id) b0.id
      { b0 with status := BookingStatus.Cancelled } hflip2 rfl

/-- Witness for C5: passenger 1 cancels their two-seat booking twice. -/
theorem c5_cancel_idempotent_witness :
    Inv stBooked ∧
    (cancel stBooked 1 0 = .ok (stepCancel stBooked 1 0) ∧
     (stepCancel stBooked 1 0).bookings.find? (fun b => b.id == 0)
       = some { bookingW with status := BookingStatus.Cancelled } ∧
     (stepCancel stBooked 1 0).rides.find? (fun q => q.id == bookingW.rideId)
       = some { rideOneLeft with availableSeats := rideOneLeft.availableSeats + bookingW.seatsRequested } ∧
     rideOneLeft.availableSeats + bookingW.seatsRequested ≤ rideOneLeft.totalSeats ∧
     cancel (stepCancel stBooked 1 0) 1 0 = .ok (stepCancel stBooked 1 0)) :=
  ⟨by decide,
   c5_cancel_idempotent stBooked 0 bookingW rideOneLeft (by decide) (by decide) rfl
     (by decide) rfl⟩

end CarRide

namespace CarRide

/-- C6: every ride returned by search is Active with `availableSeats > 0`
(a sold-out ride never appears), and the returned sequence is sorted by
`departureTime` ascending with ties broken deterministically by `id`
(the order `rideLE`). -/
theorem c6_search_active_sorted (s : LedgerState) (f : SearchFilter) :
    (∀ r ∈ searchRides s f, r.status = RideStatus.Active ∧ 0 < r.availableSeats) ∧
    List.Sorted rideLE (searchRides s f) := by
  constructor
  · intro r hr
    have h := mem_searchRides.mp hr
    exact ⟨h.2.1, h.2.2.1⟩
  · unfold searchRides
    exact List.sorted_insertionSort rideLE _

/-- Witness for C6 on a three-ride catalog (one ride sold out). -/
theorem c6_search_active_sorted_witness :
    rideEarly ∈ searchRides stCatalog noFilter ∧
    (rideEarly.status = RideStatus.Active ∧ 0 < rideEarly.availableSeats) ∧
    List.Sorted rideLE (searchRides stCatalog noFilter) :=
  ⟨by decide,
   (c6_search_active_sorted stCatalog noFilter).1 rideEarly (by decide),
   (c6_search_active_sorted stCatalog noFilter).2⟩

/-- C8: a successfully published ride is returned by an immediately
following search whose filter matches it; a successful reserve never
changes any ride's status (the ride stays Active); and a ride whose
`availableSeats` is 0 is excluded from every search result with no
separate status transition. -/
theorem c8_round_trip :
    (∀ (s : LedgerState) (riderId : Nat) (now : Int) (req : CreateRideReq)
        (r : RideOffer) (s' : LedgerState) (f : SearchFilter),
      publish s riderId now req = .ok (r, s') → matchesFilter f r = true →
      r ∈ searchRides s' f) ∧
    (∀ (s : LedgerState) (p rid n : Nat) (b : Booking) (s' : LedgerState),
      reserve s p rid n = .ok (b, s') →
      s'.rides.map (fun q => (q.id, q.status)) = s.rides.map (fun q => (q.id, q.status))) ∧
    (∀ (s : LedgerState) (f : SearchFilter) (r : RideOffer),
      r.availableSeats = 0 → r ∉ searchRides s f) := by
  refine ⟨?_, ?_, ?_⟩
  · intro s riderId now req r s' f hpub hmatch
    obtain ⟨hrides, _, havail, hact, htot⟩ := publish_ok hpub
    apply mem_searchRides.mpr
    refine ⟨?_, hact, ?_, hmatch⟩
    · rw [hrides]
      exact List.mem_append_right _ (by simp)
    · omega
  · intro s p rid n b s' hres
    obtain ⟨r0, _, hrides, _, _, _, _⟩ := reserve_ok hres
    rw [hrides, List.map_map]
    apply List.map_congr_left
    intro q _
    by_cases hq : q.id = rid
    · simp [Function.comp, hq]
    · simp [Function.comp, hq]
  · intro s f r hz hmem
    have h := mem_searchRides.mp hmem
    omega

/-- Witness for C8: publish into the empty ledger, then search with the
unconstrained filter. -/
theorem c8_round_trip_witness :
    publish initState 7 0 reqW = .ok (ridePub, stPub) ∧
    ridePub ∈ searchRides stPub noFilter :=
  ⟨rfl, c8_round_trip.1 initState 7 0 reqW ridePub stPub noFilter rfl rfl⟩

/-- C1: against a fresh ride with `availableSeats = totalSeats ≥ 1`, any
interleaving of N concurrent reserve calls each requesting `totalSeats`
seats (each reserve is one atomic unit of work, so an interleaving is a
sequence) grants seats to exactly the first call: it succeeds and
exhausts `availableSeats` to 0, and every other call fails with
`InsufficientSeatsError` - never more than `totalSeats` seats are granted
in total, and the second call observes the first call's decrement.
Reserve calls on different rideIds do not interact: a reserve on one ride
leaves the success-or-error outcome of a reserve on any other ride
unchanged. -/
theorem c1_no_overbooking :
    (∀ (s : LedgerState) (rid : Nat) (r : RideOffer) (p0 : Nat) (ps : List Nat),
      findRide s rid = some r → r.status = RideStatus.Active →
      r.availableSeats = r.totalSeats → 1 ≤ r.totalSeats →
      (∀ p ∈ p0 :: ps, p ≠ r.riderId) →
      (∃ b, (runReserves rid r.totalSeats s (p0 :: ps)).1.head? = some (.ok b)) ∧
      (∀ res ∈ (runReserves rid r.totalSeats s (p0 :: ps)).1.tail,
        res = Except.error ApiError.InsufficientSeatsError) ∧
      (∃ r', findRide (runReserves rid r.totalSeats s (p0 :: ps)).2 rid = some r' ∧
        r'.availableSeats = 0)) ∧
    (∀ (s : LedgerState) (p1 rid1 n1 p2 rid2 n2 : Nat), rid1 ≠ rid2 →
      reserveOutcome (stepReserve s p1 rid1 n1) p2 rid2 n2 = reserveOutcome s p2 rid2 n2) := by
  constructor
  · intro s rid r p0 ps hfind hact havail htot hps
    have hfq : s.rides.find? (fun q => q.id == rid) = some r := hfind
    have hid : r.id = rid := by simpa using List.find?_some hfq
    have hc1 : ¬(r.status ≠ RideStatus.Active) := by simp [hact]
    have hc2 : ¬(r.totalSeats < 1) := by omega
    have hc3 : ¬(p0 = r.riderId) := hps p0 (by simp)
    have hc4 : ¬(r.availableSeats < r.totalSeats) := by omega
    have hfind1 : (s.rides.map (fun q =>
        if q.id == rid then { q with availableSeats := q.availableSeats - r.totalSeats } else q)).find?
          (fun q => q.id == rid)
        = some { r with availableSeats := r.availableSeats - r.totalSeats } := by
      rw [find?_map_if s.rides rid rid
        (fun q => { q with availableSeats := q.availableSeats - r.totalSeats }) (fun q => rfl), hfq]
      have hbq : (r.id == rid) = true := by simpa using hid
      simp [hbq]
      intro hx
      exact absurd hid hx
    have hloop := runReserves_soldout rid r.totalSeats ps
      { s with
        rides := s.rides.map (fun q =>
          if q.id == rid then { q with availableSeats := q.availableSeats - r.totalSeats } else q),
        bookings := s.bookings ++
          [{ id := s.nextBookingId, rideId := rid, passengerId := p0,
             seatsRequested := r.totalSeats,
             totalPrice := (r.totalSeats : Rat) * r.pricePerSeat,
             status := BookingStatus.Confirmed }],
        nextBookingId := s.nextBookingId + 1 }
      { r with availableSeats := r.availableSeats - r.totalSeats }
      hfind1 hact (by dsimp only; omega) htot
      (fun q hq => hps q (List.mem_cons_of_mem _ hq))
    simp only [runReserves, reserve, hfq, if_neg hc1, if_neg hc2, if_neg hc3, if_neg hc4]
    refine ⟨⟨_, rfl⟩, ?_, ?_⟩
    · intro res hres
      rw [List.tail_cons, hloop.1] at hres
      rcases List.mem_map.mp hres with ⟨x, _, h⟩
      exact h.symm
    · rw [hloop.2]
      exact ⟨_, hfind1, by dsimp only; omega⟩
  · intro s p1 rid1 n1 p2 rid2 n2 hne
    unfold stepReserve
    cases hf1 : reserve s p1 rid1 n1 with
    | error e => rfl
    | ok pair =>
      obtain ⟨b1, s1⟩ := pair
      obtain ⟨r0, hfind0, hrides, _, _, _, _⟩ := reserve_ok hf1
      have hsame : s1.rides.find? (fun q => q.id == rid2)
          = s.rides.find? (fun q => q.id == rid2) := by
        rw [hrides, find?_map_if s.rides rid1 rid2
          (fun q => { q with availableSeats := q.availableSeats - n1 }) (fun q => rfl)]
        cases hf2 : s.rides.find? (fun q => q.id == rid2) with
        | none => rfl
        | some r2 =>
          have hr2 : r2.id = rid2 := by simpa using List.find?_some hf2
          have hneb : ¬((r2.id == rid1) = true) := by
            simp [hr2]
            exact fun hx => hne hx.symm
          simp [Option.map, hneb]
      unfold reserveOutcome reserve
      rw [hsame]
      cases s.rides.find? (fun q => q.id == rid2) with
      | none => rfl
      | some r2 =>
        dsimp only
        split_ifs <;> rfl

/-- Witness for C1: two concurrent three-seat calls against the fresh
three-seat ride. -/
theorem c1_no_overbooking_witness :
    (∀ p ∈ [1, 2], p ≠ rideFresh.riderId) ∧
    ((∃ b, (runReserves 0 rideFresh.totalSeats stFresh [1, 2]).1.head? = some (.ok b)) ∧
     (∀ res ∈ (runReserves 0 rideFresh.totalSeats stFresh [1, 2]).1.tail,
       res = Except.error ApiError.InsufficientSeatsError) ∧
     (∃ r', findRide (runReserves 0 rideFresh.totalSeats stFresh [1, 2]).2 0 = some r' ∧
       r'.availableSeats = 0)) :=
  ⟨by decide,
   c1_no_overbooking.1 stFresh 0 rideFresh 1 [2] (by decide) (by decide) (by decide)
     (by decide) (by decide)⟩

end CarRide

namespace CarRideClient

/-- C9: every booking request either client booking handler
(`SearchResultsScreen.handleBookRide`, `RideDetailsScreen.handleBookRide`)
ever issues asks for exactly one seat. -/
theorem c9_one_seat_per_request :
    (∀ (user : Option String) (rideId riderId : String) (req : CreateBookingMsg),
      searchBookRequest user rideId riderId = some req → req.seats_requested = 1) ∧
    (∀ (user : Option String) (ride : ClientRide) (req : CreateBookingMsg),
      detailsBookRequest user ride = some req → req.seats_requested = 1) := by
  constructor
  · intro user rideId riderId req h
    unfold searchBookRequest at h
    repeat split at h
    all_goals first
      | exact Option.noConfusion h
      | (injection h with h'; subst h'; rfl)
  · intro user ride req h
    unfold detailsBookRequest at h
    dsimp only at h
    by_cases hrid : (match ride.mongoId with
        | some s => if s = "" then ride.id else s
        | none => ride.id) = ""
    · rw [if_pos hrid] at h
      exact Option.noConfusion h
    · rw [if_neg hrid] at h
      cases user with
      | none =>
        dsimp only at h
        injection h with h'
        subst h'
        rfl
      | some uid =>
        dsimp only at h
        by_cases hown : ride.rider_id = uid
        · rw [if_pos hown] at h
          exact Option.noConfusion h
        · rw [if_neg hown] at h
          injection h with h'
          subst h'
          rfl

/-- Witness for C9: a concrete booking click by a non-owner. -/
theorem c9_one_seat_per_request_witness :
    searchBookRequest (some "u") "r1" "v" = some { ride_id := "r1", seats_requested := 1 } ∧
    ({ ride_id := "r1", seats_requested := 1 } : CreateBookingMsg).seats_requested = 1 :=
  ⟨rfl,
   c9_one_seat_per_request.1 (some "u") "r1" "v"
     { ride_id := "r1", seats_requested := 1 } rfl⟩

/-- C10 counterexample: the non-validating form-based publish screen
variant issues a ride-creation request for 99 seats - the claim that the
client never requests more than 8 seats fails on it. -/
theorem c10_counterexample :
    (handlePublishRideLegacy formNinetyNine).map (fun m => m.available_seats)
      = some (some 99) ∧
    ¬((1 : Int) ≤ 99 ∧ (99 : Int) ≤ 8) :=
  ⟨rfl, by decide⟩

/-- C10 (amended): the modal-based publish screens always send the
constant `available_seats = 4`, and the validating form-based publish
screen only sends seat counts its validation admits - integers in
`[1, 8]`; the claim holds for those handlers, while the non-validating
legacy form variant is exempted (see the counterexample). -/
theorem c10_seat_count_amended :
    (∀ (now : Int) (f : ModalForm) (req : CreateRideMsg),
      handlePublishRideModal now f = some req → req.available_seats = some 4) ∧
    (∀ (now : Int) (f : RideFormA) (req : CreateRideMsg),
      handlePublishRideA now f = some req →
      ∃ j, req.available_seats = some j ∧ 1 ≤ j ∧ j ≤ 8) := by
  constructor
  · intro now f req h
    unfold handlePublishRideModal at h
    split_ifs at h with hv
    repeat split at h
    all_goals first
      | exact Option.noConfusion h
      | (injection h with h'; subst h'; rfl)
  · intro now f req h
    unfold handlePublishRideA at h
    split_ifs at h with hv
    cases hd : f.departureDate with
    | none => rw [hd] at h; exact Option.noConfusion h
    | some d =>
      rw [hd] at h
      injection h with h'
      subst h'
      unfold validateRideData at hv
      simp only [Bool.and_eq_true] at hv
      have hlast := hv.2
      cases hj : parseIntJS f.availableSeats with
      | none => rw [hj] at hlast; simp at hlast
      | some j =>
        rw [hj] at hlast
        simp only [Bool.and_eq_true, decide_eq_true_eq] at hlast
        exact ⟨j, by dsimp only, hlast.1, hlast.2⟩

/-- Witness for C10 (amended): the validating form with 4 seats. -/
theorem c10_seat_count_amended_witness :
    handlePublishRideA 0 formFourSeats = some msgFour ∧
    (∃ j, msgFour.available_seats = some j ∧ 1 ≤ j ∧ j ≤ 8) :=
  ⟨rfl, c10_seat_count_amended.2 0 formFourSeats msgFour rfl⟩

end CarRideClient

namespace CarRide

/-- C7 (amended): the client-side `validateRideData` of the validating
form-based publish screen accepts exactly when origin, destination,
departure and price fields are non-blank, the parsed departure - when
the date is valid - is strictly after the current time, the parsed price
is a number strictly greater than 0 (so 0 is rejected), and the parsed
seat count is a number in [1, 8]; no latitude or longitude range check
is performed.  The spec-modelled backend `publish`, on success, persists
the ride with `availableSeats = totalSeats` and `status = Active`. -/
theorem c7_publish_validation_amended :
    (∀ (now : Int) (f : CarRideClient.RideFormA),
      CarRideClient.validateRideData now f = true ↔
        (CarRideClient.trimChars f.originName ≠ [] ∧
         CarRideClient.trimChars f.destinationName ≠ [] ∧
         CarRideClient.trimChars f.departureTime ≠ [] ∧
         (∀ d, f.departureDate = some d → now < d) ∧
         CarRideClient.trimChars f.pricePerSeat ≠ [] ∧
         (∃ m k, CarRideClient.parseFloatJS f.pricePerSeat = some (m, k) ∧ 0 < m) ∧
         (∃ j, CarRideClient.parseIntJS f.availableSeats = some j ∧ 1 ≤ j ∧ j ≤ 8))) ∧
    (∀ (s : LedgerState) (riderId : Nat) (now : Int) (req : CreateRideReq)
        (r : RideOffer) (s' : LedgerState),
      publish s riderId now req = .ok (r, s') →
      r.availableSeats = r.totalSeats ∧ r.status = RideStatus.Active ∧ r ∈ s'.rides) := by
  constructor
  · intro now f
    simp only [CarRideClient.validateRideData, CarRideClient.posFloat, Bool.and_eq_true,
      Bool.not_eq_true', List.isEmpty_eq_false, decide_eq_true_eq]
    cases hd : f.departureDate with
    | none =>
      cases hp : CarRideClient.parseFloatJS f.pricePerSeat with
      | none => simp
      | some p =>
        obtain ⟨m, k⟩ := p
        cases hj : CarRideClient.parseIntJS f.availableSeats with
        | none => simp
        | some j => simp [Option.elim, and_assoc]
    | some d =>
      cases hp : CarRideClient.parseFloatJS f.pricePerSeat with
      | none => simp
      | some p =>
        obtain ⟨m, k⟩ := p
        cases hj : CarRideClient.parseIntJS f.availableSeats with
        | none => simp
        | some j => simp [Option.elim, and_assoc, Int.not_le]
  · intro s riderId now req r s' hpub
    obtain ⟨hrides, _, havail, hact, _⟩ := publish_ok hpub
    refine ⟨havail, hact, ?_⟩
    rw [hrides]
    exact List.mem_append_right _ (by simp)

/-- Witness for C7 (amended): a successful publish into the empty
ledger persists the Active, fully-available ride. -/
theorem c7_publish_validation_amended_witness :
    publish initState 7 0 reqW = .ok (ridePub, stPub) ∧
    (ridePub.availableSeats = ridePub.totalSeats ∧ ridePub.status = RideStatus.Active ∧
     ridePub ∈ stPub.rides) :=
  ⟨rfl, c7_publish_validation_amended.2 initState 7 0 reqW ridePub stPub rfl⟩

/-- C7 counterexample: on a form whose every field satisfies the claim's
acceptance rule with price 0, the code rejects (`validateRideData` is
false, because the code demands price strictly positive); and on a form
with latitude 200 the code accepts although the claim's rule rejects
(the code performs no coordinate range check). -/
theorem c7_counterexample :
    CarRideClient.publishAcceptsPerClaim 0 CarRideClient.formZeroPrice = true ∧
    CarRideClient.validateRideData 0 CarRideClient.formZeroPrice = false ∧
    CarRideClient.validateRideData 0 CarRideClient.formBadLat = true ∧
    CarRideClient.publishAcceptsPerClaim 0 CarRideClient.formBadLat = false :=
  ⟨rfl, rfl, rfl, rfl⟩

end CarRide
